import Mathlib

/-!
Verification of the hidden-gem / authenticity scoring core of the travel
application (backend/app/services/place_scorer.py), the place-name extractor
post-processing (backend/app/services/scraper.py), and the worker task wrapper
(backend/app/workers/tasks.py).

Numeric model: Python ints are `ℤ` (counts from SQL `.count()` are `ℕ`),
Python floats are modelled as exact rationals `ℚ`.  A Python expression that
raises (ZeroDivisionError) is modelled as `Option.none` / `Except.error`.
-/

/-- Body of `PlaceScorer.calculate_gem_score` after the tourist-ratio
computation (place_scorer.py lines 29-40): base score, sentiment multiplier,
freshness bonus, final clamp `min(100, max(0, score))`.  The freshness bonus
keeps the source's evaluation order: integer `max(0, 30 - days)` first, then
true division by 30 and multiplication by 20. -/
def gemFromRatio (tourist_ratio sentiment : ℚ) (days_since_discovery : ℤ) : ℚ :=
  let base_score := (1 - tourist_ratio) * 100
  let sentiment_multiplier := max (0.5 : ℚ) (min (1.5 : ℚ) (sentiment + 1))
  let freshness_bonus := ((max 0 (30 - days_since_discovery) : ℤ) : ℚ) / 30 * 20
  let score := base_score * sentiment_multiplier + freshness_bonus
  min 100 (max 0 score)

/-- `PlaceScorer.calculate_gem_score` (place_scorer.py lines 14-40).
The source computes `tourist_ratio = 0` when `tourist_mentions == 0` and
otherwise `tourist_mentions / (local_mentions + tourist_mentions)`, which
raises ZeroDivisionError (modelled as `none`) when the denominator is zero.
The Python default `days_since_discovery=30` is kept as a default argument. -/
def calculate_gem_score (local_mentions tourist_mentions : ℤ) (sentiment : ℚ)
    (days_since_discovery : ℤ := 30) : Option ℚ :=
  if tourist_mentions = 0 then
    some (gemFromRatio 0 sentiment days_since_discovery)
  else if local_mentions + tourist_mentions = 0 then
    none
  else
    some (gemFromRatio
      ((tourist_mentions : ℚ) / ((local_mentions : ℚ) + (tourist_mentions : ℚ)))
      sentiment days_since_discovery)

/-- The specification's five-step formula for the hidden-gem score, written
from the spec's own words: tourist ratio `t / (l + t)` with the ratio defined
as `0` when both counts are zero (and mathematically undefined, modelled
`none`, when the denominator vanishes otherwise); base score `(1 - ratio) * 100`;
sentiment multiplier `clamp(sentiment + 1, 0.5, 1.5)`; freshness bonus
`max(0, 30 - days) / 30 * 20`; final score `clamp(base * mult + bonus, 0, 100)`
where `clamp(x, lo, hi) = max lo (min hi x)`. -/
def gem_score_spec_formula (l t : ℤ) (s : ℚ) (d : ℤ) : Option ℚ :=
  if l = 0 ∧ t = 0 then
    some (max 0 (min 100 ((1 - 0) * 100 * (max 0.5 (min 1.5 (s + 1)))
      + max 0 (30 - (d : ℚ)) / 30 * 20)))
  else if l + t = 0 then
    none
  else
    some (max 0 (min 100 ((1 - (t : ℚ) / ((l : ℚ) + (t : ℚ))) * 100
      * (max 0.5 (min 1.5 (s + 1))) + max 0 (30 - (d : ℚ)) / 30 * 20)))

/-- The hidden-gem formula with the freshness term dropped, written from the
claim's words: `clamp(base_score * sentiment_multiplier, 0, 100)`, with the
same tourist-ratio handling as the source. -/
def gem_score_no_bonus (l t : ℤ) (s : ℚ) : Option ℚ :=
  if t = 0 then
    some (min 100 (max 0 ((1 - 0) * 100 * (max (0.5 : ℚ) (min 1.5 (s + 1))))))
  else if l + t = 0 then
    none
  else
    some (min 100 (max 0 ((1 - (t : ℚ) / ((l : ℚ) + (t : ℚ))) * 100
      * (max (0.5 : ℚ) (min 1.5 (s + 1))))))

/-- Lowercase a string character by character; models Python `str.lower()`
on the ASCII data relevant here. -/
def lowerStr (s : String) : String := String.mk (s.data.map Char.toLower)

/-- The stopword set of `RedditScraper._extract_places` (scraper.py line 75). -/
def stopwords : List String := ["les", "des", "une", "dans", "avec", "pour"]

/-- Python `str.strip()`: drop leading and trailing whitespace, modelled
structurally over the character list. -/
def pyStrip (s : String) : String :=
  String.mk
    (((s.data.dropWhile Char.isWhitespace).reverse.dropWhile Char.isWhitespace).reverse)

/-- `RedditScraper._extract_places` (scraper.py lines 66-78), modelled from
the point where the regex engine has produced, for each of the three
`place_patterns`, its list of raw captured strings (`re.findall` and the
Python regex engine are external collaborators and are treated as the input
here).  The loop `places.extend([m.strip() for m in matches if
len(m.strip()) > 2])` becomes a per-pattern strip-and-filter followed by
concatenation; then the stopword filter `p.lower() not in stopwords`; and
finally `list(set(places))`, whose membership is exact (case-sensitive)
string identity, modelled by `List.dedup`. -/
def extract_places (matchesPerPattern : List (List String)) : List String :=
  let places := (matchesPerPattern.map
    (fun ms => (ms.map pyStrip).filter (fun m => m.length > 2))).flatten
  let filtered := places.filter (fun p => !(stopwords.contains (lowerStr p)))
  filtered.dedup

/-- `models.Place` restricted to the columns the scoring core reads
(models.py: `id`, `city_id`, `michelin_stars`, `address`); `michelin_stars`
and `address` are nullable columns, hence `Option`. -/
structure Place where
  id : ℕ
  city_id : ℤ
  michelin_stars : Option ℤ
  address : Option String
deriving DecidableEq

/-- `models.Mention` restricted to the columns the scoring core reads
(models.py: `place_id`, `is_local_author`, `mention_date`,
`sentiment_score`); timestamps are seconds as integers. -/
structure Mention where
  place_id : ℕ
  is_local_author : Bool
  mention_date : ℤ
  sentiment_score : ℚ
deriving DecidableEq

/-- `needle` is a leading segment of `hay`, character by character. -/
def startsWithChars : List Char → List Char → Bool
  | [], _ => true
  | _ :: _, [] => false
  | c :: cs, d :: ds => c == d && startsWithChars cs ds

/-- Python's substring test `needle in hay`. -/
def containsChars (needle : List Char) : List Char → Bool
  | [] => startsWithChars needle []
  | c :: rest => startsWithChars needle (c :: rest) || containsChars needle rest

/-- Python truthiness of the nullable integer column `michelin_stars`:
`None` and `0` are falsy. -/
def michelinTruthy : Option ℤ → Bool
  | none => false
  | some n => n != 0

/-- The landmark test of `calculate_authenticity_score` (place_scorer.py
line 56): `"tour eiffel" in place.address.lower() if place.address else
False`; a `None` or empty address is falsy. -/
def addressHasLandmark : Option String → Bool
  | none => false
  | some a =>
    if a != "" then containsChars "tour eiffel".data (a.data.map Char.toLower)
    else false

/-- One day of seconds; timestamps are modelled in seconds. -/
def secondsPerDay : ℤ := 86400

/-- The trailing-30-day local-mention count queried by
`calculate_authenticity_score` (place_scorer.py lines 59-63): mentions of the
place with `is_local_author == True` and `mention_date > utcnow() - 30 days`. -/
def recentLocalCount (mentions : List Mention) (pid : ℕ) (now : ℤ) : ℕ :=
  (mentions.filter (fun m => m.place_id == pid && m.is_local_author == true
    && decide (now - 30 * secondsPerDay < m.mention_date))).length

/-- `PlaceScorer.calculate_authenticity_score` (place_scorer.py lines 42-68):
start at 100, subtract 20 for a truthy `michelin_stars`, subtract 30 when the
lowercased address contains "tour eiffel", add 20 when the trailing-30-day
local mention count exceeds 10, and clamp with `min(100, max(0, score))`.
The database session is modelled by the list of stored mentions plus the
current time. -/
def calculate_authenticity_score (place : Place) (mentions : List Mention)
    (now : ℤ) : ℚ :=
  let score : ℚ := 100
  let score := if michelinTruthy place.michelin_stars then score - 20 else score
  let score := if addressHasLandmark place.address then score - 30 else score
  let recent_mentions := recentLocalCount mentions place.id now
  let score := if recent_mentions > 10 then score + 20 else score
  min 100 (max 0 score)

/-- A premium place next to the landmark, used to instantiate claim C8. -/
def michelinEiffelPlace : Place :=
  { id := 1, city_id := 1, michelin_stars := some 2,
    address := some "Quai Branly, near the Tour Eiffel, Paris" }

/-- `models.GemScore` restricted to the columns `update_all_scores` touches
(models.py: `place_id`, `score_date`, `hidden_gem_score`, `trending_score`,
`authenticity_score`, `tourism_saturation`, `local_mentions_7d`).
`trending_score` is never written by the scorer, hence stays `none` on
insertion. -/
structure GemScore where
  place_id : ℕ
  score_date : ℤ
  hidden_gem_score : ℚ
  trending_score : Option ℚ
  authenticity_score : ℚ
  tourism_saturation : ℚ
  local_mentions_7d : ℤ
deriving DecidableEq

/-- The relational store as the scoring core sees it: the `places`,
`mentions` and `gem_scores` tables. -/
structure DB where
  places : List Place
  mentions : List Mention
  gem_scores : List GemScore
deriving DecidableEq

/-- SQL `func.date(timestamp)` / Python `.date()`: the calendar day of a
timestamp in seconds. -/
def dateOf (t : ℤ) : ℤ := t / 86400

/-- The mention-count query of `update_all_scores` (place_scorer.py lines
78-88): mentions of the place with the given `is_local_author` flag and
`mention_date` strictly after `since`. -/
def countMentions (mentions : List Mention) (pid : ℕ) (isLocal : Bool)
    (since : ℤ) : ℕ :=
  (mentions.filter (fun m => m.place_id == pid && m.is_local_author == isLocal
    && decide (since < m.mention_date))).length

/-- The sentiment query of `update_all_scores` (place_scorer.py lines 91-93):
`AVG(sentiment_score)` over all mentions of the place, with SQL `NULL`
(no rows) coalesced to 0 by `scalar() or 0`. -/
def avgSentiment (mentions : List Mention) (pid : ℕ) : ℚ :=
  let ms := mentions.filter (fun m => m.place_id == pid)
  if ms.length = 0 then 0
  else (ms.map Mention.sentiment_score).sum / (ms.length : ℚ)

/-- One row matches the upsert key (place, calendar day). -/
def snapKeyMatches (pid : ℕ) (day : ℤ) (g : GemScore) : Bool :=
  g.place_id == pid && dateOf g.score_date == day

/-- The per-place upsert of `update_all_scores` (place_scorer.py lines
106-126): the first stored row for (place, today) has its
`hidden_gem_score`, `authenticity_score` and `local_mentions_7d` overwritten
in place; when none exists a fresh row is added, with `score_date = now` and
the tourism-saturation ratio computed only on this insert path
(`newSnapshot` is the inserted `models.GemScore(...)` row). -/
def newSnapshot (pid : ℕ) (now : ℤ) (gem auth : ℚ) (lm7 : ℤ) (tsat : ℚ) :
    GemScore :=
  { place_id := pid, score_date := now, hidden_gem_score := gem,
    trending_score := none, authenticity_score := auth,
    tourism_saturation := tsat, local_mentions_7d := lm7 }

/-- The row-level upsert loop over the stored `gem_scores` (see the doc of
`newSnapshot` for the source lines): first matching row is overwritten,
otherwise the fresh row is appended. -/
def upsertSnapshot (pid : ℕ) (now : ℤ) (gem auth : ℚ) (lm7 : ℤ) (tsat : ℚ) :
    List GemScore → List GemScore
  | [] => [newSnapshot pid now gem auth lm7 tsat]
  | g :: rest =>
    if snapKeyMatches pid (dateOf now) g then
      { g with hidden_gem_score := gem, authenticity_score := auth,
               local_mentions_7d := lm7 } :: rest
    else
      g :: upsertSnapshot pid now gem auth lm7 tsat rest

/-- The per-place loop of `update_all_scores` (place_scorer.py lines 76-124).
The source has no try/except around the loop body, so a raised per-place
error propagates and aborts the whole batch; `fails` is an injected fault
oracle modelling a per-place storage/computation fault (the spec's
"simulated storage fault") for the given place id.  A `ZeroDivisionError`
from `calculate_gem_score` likewise aborts. -/
def processPlaces (fails : ℕ → Bool) (mentions : List Mention) (now : ℤ) :
    List Place → List GemScore → Except String (List GemScore)
  | [], gs => .ok gs
  | place :: rest, gs =>
    if fails place.id then .error "storage fault"
    else
      let local_mentions := countMentions mentions place.id true (now - 7 * secondsPerDay)
      let tourist_mentions := countMentions mentions place.id false (now - 7 * secondsPerDay)
      let avg_sentiment := avgSentiment mentions place.id
      match calculate_gem_score (local_mentions : ℤ) (tourist_mentions : ℤ) avg_sentiment with
      | none => .error "ZeroDivisionError"
      | some gem_score =>
        let authenticity_score := calculate_authenticity_score place mentions now
        let tsat := (tourist_mentions : ℚ) / ((max 1 (local_mentions + tourist_mentions) : ℕ) : ℚ)
        processPlaces fails mentions now rest
          (upsertSnapshot place.id now gem_score authenticity_score
            (local_mentions : ℤ) tsat gs)

/-- `PlaceScorer.update_all_scores` (place_scorer.py lines 70-127): select
the city's places, run the per-place loop, and commit once at the end of the
batch (the new `gem_scores` table); a raised error reaches the caller
uncommitted. -/
def update_all_scores (fails : ℕ → Bool) (db : DB) (now : ℤ) (city_id : ℤ) :
    Except String DB :=
  match processPlaces fails db.mentions now
      (db.places.filter (fun p => p.city_id == city_id)) db.gem_scores with
  | .ok gs => .ok { db with gem_scores := gs }
  | .error e => .error e

/-- The structured outcome of the worker task `update_gem_scores`
(tasks.py lines 21-31): `{"status": "success", "city_id": city_id}` or
`{"status": "error", "message": str(e)}`. -/
inductive TaskResult where
  | success (city_id : ℤ)
  | error (message : String)
deriving DecidableEq

/-- The worker task `update_gem_scores` (tasks.py lines 21-31) together with
the `get_db_session` context manager (database.py lines 38-49): on success
the session commits (the new store) and the task reports success with the
city id; on a raised error the session rolls back (the store is unchanged)
and the task reports a structured error. -/
def update_gem_scores (fails : ℕ → Bool) (db : DB) (now : ℤ) (city_id : ℤ) :
    DB × TaskResult :=
  match update_all_scores fails db now city_id with
  | .ok db2 => (db2, .success city_id)
  | .error e => (db, .error e)

/-- The fault oracle of a normal run: no place fails. -/
def noFault : ℕ → Bool := fun _ => false

/-- A normal (fault-free) scoring run's committed store. -/
def run_update (db : DB) (now : ℤ) (city_id : ℤ) : DB :=
  (update_gem_scores noFault db now city_id).1

/-- Number of stored snapshots for a place on a calendar day. -/
def snapCount (gs : List GemScore) (pid : ℕ) (day : ℤ) : ℕ :=
  (gs.filter (snapKeyMatches pid day)).length

/-- Some stored snapshot exists for a place on a calendar day. -/
def hasSnap (gs : List GemScore) (pid : ℕ) (day : ℤ) : Bool :=
  gs.any (snapKeyMatches pid day)

/-- The data-model invariant: at most one snapshot per (place, calendar day). -/
def AtMostOnePerDay (gs : List GemScore) (day : ℤ) : Prop :=
  ∀ pid, snapCount gs pid day ≤ 1

/-- Two city-1 places used to instantiate the batch claims. -/
def placeOne : Place := { id := 1, city_id := 1, michelin_stars := none, address := none }

/-- Second city-1 place. -/
def placeTwo : Place := { id := 2, city_id := 1, michelin_stars := none, address := none }

/-- A store with one city-1 place and no mentions or snapshots. -/
def onePlaceDB : DB := { places := [placeOne], mentions := [], gem_scores := [] }

/-- A store with two city-1 places and no mentions or snapshots. -/
def twoPlaceDB : DB := { places := [placeOne, placeTwo], mentions := [], gem_scores := [] }

/-- A fault oracle that fails exactly the computation for place 1. -/
def faultOnFirst : ℕ → Bool := fun pid => pid == 1

/-- The two clamp orders agree: `min 100 (max 0 x) = max 0 (min 100 x)`. -/
theorem min_max_clamp_comm (x : ℚ) : min 100 (max 0 x) = max 0 (min 100 x) := by
  simp only [min_def, max_def]
  split_ifs <;> linarith

/-- Integer-side freshness bonus equals the rational-side one. -/
theorem freshness_cast (d : ℤ) :
    ((max 0 (30 - d) : ℤ) : ℚ) / 30 * 20 = max 0 (30 - (d : ℚ)) / 30 * 20 := by
  have : ((max 0 (30 - d) : ℤ) : ℚ) = max 0 (30 - (d : ℚ)) := by
    push_cast
    rfl
  rw [this]

/-- Claim C1: for every integer `local_mentions`, integer `tourist_mentions`,
rational `sentiment` and integer `days_since_discovery`,
`calculate_gem_score` returns exactly the spec's five-step formula
(tourist ratio with the both-zero case defined as 0, base score, clamped
sentiment multiplier, freshness bonus, final clamp to `[0, 100]`); the two
are undefined (a division by zero) at exactly the same inputs. -/
theorem C1_gem_score_matches_spec_formula (l t : ℤ) (s : ℚ) (d : ℤ) :
    calculate_gem_score l t s d = gem_score_spec_formula l t s d := by
  have hcore : ∀ r : ℚ, gemFromRatio r s d =
      max 0 (min 100 ((1 - r) * 100 * (max 0.5 (min 1.5 (s + 1)))
        + max 0 (30 - (d : ℚ)) / 30 * 20)) := by
    intro r
    unfold gemFromRatio
    rw [freshness_cast, min_max_clamp_comm]
  unfold calculate_gem_score gem_score_spec_formula
  by_cases ht : t = 0
  · subst ht
    by_cases hl : l = 0
    · subst hl
      rw [if_pos rfl, if_pos ⟨rfl, rfl⟩, hcore]
    · rw [if_pos rfl, if_neg (fun h => hl h.1), if_neg (by simpa using hl), hcore]
      norm_num
  · by_cases hlt : l + t = 0
    · rw [if_neg ht, if_pos hlt, if_neg (fun h => ht h.2), if_pos hlt]
    · rw [if_neg ht, if_neg hlt, if_neg (fun h => ht h.2), if_neg hlt, hcore]

/-- Claim C2: for nonnegative mention counts, sentiment in `[-2, 2]` and
nonnegative discovery age, `calculate_gem_score` neither raises nor diverges
(it returns `some` value) and its result lies in `[0, 100]`. -/
theorem C2_gem_score_total_and_bounded (l t d : ℤ) (s : ℚ)
    (hl : 0 ≤ l) (ht : 0 ≤ t) (hs₁ : -2 ≤ s) (hs₂ : s ≤ 2) (hd : 0 ≤ d) :
    ∃ q, calculate_gem_score l t s d = some q ∧ 0 ≤ q ∧ q ≤ 100 := by
  have hbound : ∀ r : ℚ, 0 ≤ gemFromRatio r s d ∧ gemFromRatio r s d ≤ 100 := by
    intro r
    unfold gemFromRatio
    constructor
    · exact le_min (by norm_num) (le_max_left 0 _)
    · exact min_le_left _ _
  unfold calculate_gem_score
  by_cases h0 : t = 0
  · exact ⟨_, by rw [if_pos h0], (hbound 0).1, (hbound 0).2⟩
  · have hlt : l + t ≠ 0 := by
      have : 0 < t := lt_of_le_of_ne ht (Ne.symm h0)
      omega
    exact ⟨_, by rw [if_neg h0, if_neg hlt], (hbound _).1, (hbound _).2⟩

/-- Witness for claim C2 at `local=10`, `tourist=3`, `sentiment=1/2`, `days=5`. -/
theorem C2_witness :
    ∃ q, calculate_gem_score 10 3 (1/2) 5 = some q ∧ 0 ≤ q ∧ q ≤ 100 :=
  C2_gem_score_total_and_bounded 10 3 5 (1/2) (by norm_num) (by norm_num)
    (by norm_num) (by norm_num) (by norm_num)

/-- Counterexample for claim C3 as stated: at `local=10`, `tourist=0`,
`sentiment=0`, the scores at day 0 and at day 30 are both clamped to 100, so
their difference is 0, not the claimed 20. -/
theorem C3_counterexample :
    calculate_gem_score 10 0 0 0 = some 100 ∧
      calculate_gem_score 10 0 0 30 = some 100 ∧ (100 : ℚ) - 100 ≠ 20 := by
  refine ⟨?_, ?_, by norm_num⟩ <;>
    norm_num [calculate_gem_score, gemFromRatio, min_def, max_def]

/-- Freshness monotonicity of the score body in the discovery age. -/
theorem gemFromRatio_mono (r s : ℚ) {d d' : ℤ} (hdd : d ≤ d') :
    gemFromRatio r s d' ≤ gemFromRatio r s d := by
  unfold gemFromRatio
  have hb : ((max 0 (30 - d') : ℤ) : ℚ) / 30 * 20 ≤
      ((max 0 (30 - d) : ℤ) : ℚ) / 30 * 20 := by
    have h1 : (max 0 (30 - d') : ℤ) ≤ max 0 (30 - d) := by omega
    have h2 : ((max 0 (30 - d') : ℤ) : ℚ) ≤ ((max 0 (30 - d) : ℤ) : ℚ) := by
      exact_mod_cast h1
    have h3 : ((max 0 (30 - d') : ℤ) : ℚ) / 30 ≤ ((max 0 (30 - d) : ℤ) : ℚ) / 30 :=
      div_le_div_of_nonneg_right h2 (by norm_num) |>.trans_eq rfl
    nlinarith
  exact min_le_min le_rfl (max_le_max le_rfl (add_le_add_left hb _))

/-- Claim C3 (amended): `calculate_gem_score` is monotonically non-increasing
in `days_since_discovery` wherever defined; but at
`(local=10, tourist=0, sentiment=0)` both day 0 and day 30 clamp to 100, so
their difference is 0, not 20.  The full 20-point freshness gap does appear
when the unclamped score stays below 100, e.g. at
`(local=10, tourist=10, sentiment=0)`: 70 at day 0 versus 50 at day 30. -/
theorem C3_gem_score_freshness (l t d d' : ℤ) (s q q' : ℚ)
    (hdd : d ≤ d')
    (h : calculate_gem_score l t s d = some q)
    (h' : calculate_gem_score l t s d' = some q') :
    q' ≤ q ∧ calculate_gem_score 10 10 0 0 = some 70 ∧
      calculate_gem_score 10 10 0 30 = some 50 := by
  refine ⟨?_, ?_, ?_⟩
  case refine_2 => norm_num [calculate_gem_score, gemFromRatio, min_def, max_def]
  case refine_3 => norm_num [calculate_gem_score, gemFromRatio, min_def, max_def]
  unfold calculate_gem_score at h h'
  by_cases h0 : t = 0
  · rw [if_pos h0] at h h'
    obtain rfl : q = gemFromRatio 0 s d := (Option.some_injective _ h.symm)
    obtain rfl : q' = gemFromRatio 0 s d' := (Option.some_injective _ h'.symm)
    exact gemFromRatio_mono 0 s hdd
  · by_cases hlt : l + t = 0
    · rw [if_neg h0, if_pos hlt] at h
      exact absurd h (by simp)
    · rw [if_neg h0, if_neg hlt] at h h'
      obtain rfl : q = _ := (Option.some_injective _ h.symm)
      obtain rfl : q' = _ := (Option.some_injective _ h'.symm)
      exact gemFromRatio_mono _ s hdd

/-- Witness for claim C3 (amended) at `local=10`, `tourist=10`, `sentiment=0`,
days 0 and 30. -/
theorem C3_witness :
    (50 : ℚ) ≤ 70 ∧ calculate_gem_score 10 10 0 0 = some 70 ∧
      calculate_gem_score 10 10 0 30 = some 50 :=
  C3_gem_score_freshness 10 10 0 30 0 70 50 (by norm_num)
    (by norm_num [calculate_gem_score, gemFromRatio, min_def, max_def])
    (by norm_num [calculate_gem_score, gemFromRatio, min_def, max_def])

/-- Claim C6: the code does not clamp negative counts defensively; at
`local_mentions = -5`, `tourist_mentions = 5` the denominator
`local + tourist` is zero while `tourist ≠ 0`, and the source raises
ZeroDivisionError (modelled as `none`) instead of returning a clamped value. -/
theorem C6_division_by_zero : calculate_gem_score (-5) 5 0 30 = none := by
  norm_num [calculate_gem_score]

/-- Counterexample for claim C7 as stated: dedup in `_extract_places` is the
case-sensitive `list(set(places))`, so the captures "Chez Paul" and
"chez paul" (as produced by the first `place_patterns` regex, which runs with
`re.IGNORECASE`, on a blob such as "Il faut visiter Chez Paul. Il faut
visiter chez paul.") both survive: the returned collection contains two
distinct candidates that are equal ignoring case. -/
theorem C7_counterexample :
    "Chez Paul" ∈ extract_places [["Chez Paul", "chez paul"], [], []] ∧
      "chez paul" ∈ extract_places [["Chez Paul", "chez paul"], [], []] ∧
      "Chez Paul" ≠ "chez paul" ∧
      lowerStr "Chez Paul" = lowerStr "chez paul" := by
  refine ⟨by decide, by decide, by decide, by decide⟩

/-- Claim C7 (amended): every candidate returned by `_extract_places` has
length at least 3 after whitespace stripping and is not a stopword under
case-insensitive comparison, and the returned collection contains no two
identical candidates; but deduplication is exact (case-sensitive) string
identity, so two candidates that differ only in letter case may both be
returned. -/
theorem C7_extract_places_filters (input : List (List String)) :
    (extract_places input).Nodup ∧
      ∀ p ∈ extract_places input, 3 ≤ p.length ∧ lowerStr p ∉ stopwords := by
  unfold extract_places
  refine ⟨List.nodup_dedup _, ?_⟩
  intro p hp
  rw [List.mem_dedup, List.mem_filter] at hp
  obtain ⟨hmem, hstop⟩ := hp
  constructor
  · rw [List.mem_flatten] at hmem
    obtain ⟨lst, hlst, hplst⟩ := hmem
    rw [List.mem_map] at hlst
    obtain ⟨ms, _, rfl⟩ := hlst
    rw [List.mem_filter] at hplst
    have := of_decide_eq_true hplst.2
    omega
  · intro hcontra
    rw [Bool.not_eq_eq_eq_not, Bool.not_true] at hstop
    have hc : stopwords.contains (lowerStr p) = true := by
      rw [List.contains_eq_any_beq]
      exact List.any_beq.mpr hcontra
    rw [hc] at hstop
    exact absurd hstop (by simp)

/-- Witness for claim C7 (amended) at a concrete one-pattern input. -/
theorem C7_witness :
    (extract_places [["Chez Janou "]]).Nodup ∧
      3 ≤ ("Chez Janou" : String).length ∧
      lowerStr "Chez Janou" ∉ stopwords :=
  ⟨(C7_extract_places_filters [["Chez Janou "]]).1,
    (C7_extract_places_filters [["Chez Janou "]]).2 "Chez Janou" (by decide)⟩

/-- Claim C8: for a place with a truthy premium (Michelin) designation whose
address contains the landmark substring and with fewer than 10 recent local
mentions, `calculate_authenticity_score` returns exactly 100 - 20 - 30 = 50;
in general it starts at 100, subtracts 20 for the premium designation,
subtracts 30 for the landmark address, adds 20 only when the recent local
mention count exceeds 10, and clamps the result to [0, 100]. -/
theorem C8_authenticity_score (place : Place) (mentions : List Mention) (now : ℤ) :
    (michelinTruthy place.michelin_stars = true →
      addressHasLandmark place.address = true →
      recentLocalCount mentions place.id now < 10 →
      calculate_authenticity_score place mentions now = 50) ∧
    calculate_authenticity_score place mentions now =
      min 100 (max 0 (100 - (if michelinTruthy place.michelin_stars then (20 : ℚ) else 0)
        - (if addressHasLandmark place.address then (30 : ℚ) else 0)
        + (if recentLocalCount mentions place.id now > 10 then (20 : ℚ) else 0))) := by
  constructor
  · intro h1 h2 h3
    have h3' : ¬ recentLocalCount mentions place.id now > 10 := by omega
    simp only [calculate_authenticity_score]
    rw [if_pos h1, if_pos h2, if_neg h3']
    norm_num [min_def, max_def]
  · simp only [calculate_authenticity_score]
    split_ifs <;> norm_num [min_def, max_def]

/-- Witness for claim C8: a starred place by the landmark with no recent
local mentions scores exactly 50. -/
theorem C8_witness : calculate_authenticity_score michelinEiffelPlace [] 0 = 50 :=
  (C8_authenticity_score michelinEiffelPlace [] 0).1 (by decide) (by decide)
    (by decide)

/-- Reading the upsert key as a proposition. -/
theorem snapKeyMatches_eq_true {pid : ℕ} {day : ℤ} {g : GemScore} :
    snapKeyMatches pid day g = true ↔
      g.place_id = pid ∧ dateOf g.score_date = day := by
  simp [snapKeyMatches]

/-- Negated form of the upsert-key test. -/
theorem snapKeyMatches_eq_false {pid : ℕ} {day : ℤ} {g : GemScore} :
    snapKeyMatches pid day g = false ↔
      ¬(g.place_id = pid ∧ dateOf g.score_date = day) := by
  rw [Bool.eq_false_iff]
  exact not_congr snapKeyMatches_eq_true

/-- Overwriting the three score fields leaves the upsert key unchanged. -/
theorem snapKeyMatches_update (pid' : ℕ) (day' : ℤ) (g : GemScore)
    (gem auth : ℚ) (lm7 : ℤ) :
    snapKeyMatches pid' day'
      { g with hidden_gem_score := gem, authenticity_score := auth,
               local_mentions_7d := lm7 } = snapKeyMatches pid' day' g := rfl

/-- The upsert key of the freshly inserted row. -/
theorem snapKeyMatches_new (pid pid' : ℕ) (now day' : ℤ) (gem auth : ℚ)
    (lm7 : ℤ) (tsat : ℚ) :
    snapKeyMatches pid' day' (newSnapshot pid now gem auth lm7 tsat) =
      ((pid == pid') && (dateOf now == day')) := rfl

/-- When some row already matches the upsert key, the upsert only rewrites
score fields in place, so every key's snapshot count is unchanged. -/
theorem upsert_snapCount_of_hasSnap (pid : ℕ) (now : ℤ) (gem auth : ℚ)
    (lm7 : ℤ) (tsat : ℚ) (pid' : ℕ) (day' : ℤ) (gs : List GemScore)
    (h : hasSnap gs pid (dateOf now) = true) :
    snapCount (upsertSnapshot pid now gem auth lm7 tsat gs) pid' day' =
      snapCount gs pid' day' := by
  induction gs with
  | nil => simp [hasSnap] at h
  | cons g rest ih =>
    by_cases hm : snapKeyMatches pid (dateOf now) g = true
    · simp only [upsertSnapshot, hm, if_true, snapCount, List.filter_cons,
        snapKeyMatches_update]
      by_cases hg : snapKeyMatches pid' day' g = true <;> simp [hg]
    · have hrest : hasSnap rest pid (dateOf now) = true := by
        simp only [hasSnap, List.any_cons, hm, Bool.false_or] at h
        simpa [hasSnap] using h
      have ih' := ih hrest
      simp only [snapCount] at ih'
      simp only [upsertSnapshot, hm, Bool.false_eq_true, if_false, snapCount,
        List.filter_cons]
      by_cases hg : snapKeyMatches pid' day' g = true <;> simp [hg, ih']

/-- When no row matches the upsert key, the upsert appends the fresh row. -/
theorem upsert_eq_append (pid : ℕ) (now : ℤ) (gem auth : ℚ) (lm7 : ℤ)
    (tsat : ℚ) (gs : List GemScore)
    (h : hasSnap gs pid (dateOf now) = false) :
    upsertSnapshot pid now gem auth lm7 tsat gs =
      gs ++ [newSnapshot pid now gem auth lm7 tsat] := by
  induction gs with
  | nil => rfl
  | cons g rest ih =>
    simp only [hasSnap, List.any_cons, Bool.or_eq_false_iff] at h
    obtain ⟨hg, hrest⟩ := h
    have hm : ¬ snapKeyMatches pid (dateOf now) g = true := by simp [hg]
    have hrest' : hasSnap rest pid (dateOf now) = false := by
      simpa [hasSnap] using hrest
    simp only [upsertSnapshot, hm, Bool.false_eq_true, if_false,
      List.cons_append]
    rw [ih hrest']

/-- A key with no row has snapshot count zero. -/
theorem snapCount_eq_zero_of_not_hasSnap {gs : List GemScore} {pid : ℕ}
    {day : ℤ} (h : hasSnap gs pid day = false) : snapCount gs pid day = 0 := by
  rw [snapCount, List.length_eq_zero, List.filter_eq_nil_iff]
  intro a ha hpa
  have hT : hasSnap gs pid day = true := List.any_eq_true.mpr ⟨a, ha, hpa⟩
  rw [h] at hT
  simp at hT

/-- Snapshot counting distributes over table concatenation. -/
theorem snapCount_append (gs₁ gs₂ : List GemScore) (pid : ℕ) (day : ℤ) :
    snapCount (gs₁ ++ gs₂) pid day =
      snapCount gs₁ pid day + snapCount gs₂ pid day := by
  simp [snapCount, List.filter_append]

/-- A one-row table holds at most one row for any key. -/
theorem snapCount_singleton_le (g : GemScore) (pid : ℕ) (day : ℤ) :
    snapCount [g] pid day ≤ 1 := by
  simp only [snapCount, List.filter_cons, List.filter_nil]
  split <;> simp

/-- A key has a row exactly when its snapshot count is positive. -/
theorem hasSnap_iff {gs : List GemScore} {pid : ℕ} {day : ℤ} :
    hasSnap gs pid day = true ↔ 0 < snapCount gs pid day := by
  constructor
  · intro h
    rcases List.any_eq_true.mp h with ⟨x, hx, hpx⟩
    have hmem : x ∈ gs.filter (snapKeyMatches pid day) :=
      List.mem_filter.mpr ⟨hx, hpx⟩
    have hne : gs.filter (snapKeyMatches pid day) ≠ [] :=
      List.ne_nil_of_mem hmem
    simpa [snapCount] using List.length_pos.mpr hne
  · intro h
    have hne : gs.filter (snapKeyMatches pid day) ≠ [] := by
      intro hnil
      rw [snapCount, hnil] at h
      simp at h
    obtain ⟨x, hx⟩ := List.exists_mem_of_ne_nil _ hne
    obtain ⟨hmem, hp⟩ := List.mem_filter.mp hx
    exact List.any_eq_true.mpr ⟨x, hmem, hp⟩

/-- Upserting for one key never changes the snapshot count of another key. -/
theorem upsert_snapCount_other (pid : ℕ) (now : ℤ) (gem auth : ℚ) (lm7 : ℤ)
    (tsat : ℚ) (pid' : ℕ) (day' : ℤ) (hne : pid' ≠ pid ∨ day' ≠ dateOf now)
    (gs : List GemScore) :
    snapCount (upsertSnapshot pid now gem auth lm7 tsat gs) pid' day' =
      snapCount gs pid' day' := by
  have hnew : ((pid == pid') && ((dateOf now : ℤ) == day')) = false := by
    rcases hne with h | h
    · have hb : (pid == pid') = false := by
        rw [beq_eq_false_iff_ne]
        exact fun hh => h hh.symm
      simp [hb]
    · have hb : ((dateOf now : ℤ) == day') = false := by
        rw [beq_eq_false_iff_ne]
        exact fun hh => h hh.symm
      simp [hb]
  by_cases hs : hasSnap gs pid (dateOf now) = true
  · exact upsert_snapCount_of_hasSnap pid now gem auth lm7 tsat pid' day' gs hs
  · have hs' : hasSnap gs pid (dateOf now) = false := by simpa using hs
    rw [upsert_eq_append pid now gem auth lm7 tsat gs hs', snapCount_append]
    have h0 : snapCount [newSnapshot pid now gem auth lm7 tsat] pid' day' = 0 := by
      simp [snapCount, List.filter_cons, snapKeyMatches_new, hnew]
    omega

/-- Upserting bounds its own key's snapshot count by the old count or one. -/
theorem upsert_snapCount_self (pid : ℕ) (now : ℤ) (gem auth : ℚ) (lm7 : ℤ)
    (tsat : ℚ) (gs : List GemScore) :
    snapCount (upsertSnapshot pid now gem auth lm7 tsat gs) pid (dateOf now) ≤
      max (snapCount gs pid (dateOf now)) 1 := by
  by_cases hs : hasSnap gs pid (dateOf now) = true
  · rw [upsert_snapCount_of_hasSnap pid now gem auth lm7 tsat pid (dateOf now) gs hs]
    exact le_max_left _ _
  · have hs' : hasSnap gs pid (dateOf now) = false := by simpa using hs
    rw [upsert_eq_append pid now gem auth lm7 tsat gs hs', snapCount_append,
      snapCount_eq_zero_of_not_hasSnap hs']
    have h1 := snapCount_singleton_le (newSnapshot pid now gem auth lm7 tsat)
      pid (dateOf now)
    omega

/-- Upserting changes any key's snapshot count by at most reaching one. -/
theorem upsert_snapCount_le (pid : ℕ) (now : ℤ) (gem auth : ℚ) (lm7 : ℤ)
    (tsat : ℚ) (pid' : ℕ) (day' : ℤ) (gs : List GemScore) :
    snapCount (upsertSnapshot pid now gem auth lm7 tsat gs) pid' day' ≤
      max (snapCount gs pid' day') 1 := by
  by_cases h : pid' = pid ∧ day' = dateOf now
  · obtain ⟨rfl, rfl⟩ := h
    apply upsert_snapCount_self
  · rw [upsert_snapCount_other pid now gem auth lm7 tsat pid' day' (by tauto) gs]
    exact le_max_left _ _

/-- When a row for the key already exists, the upsert rewrites in place and
the table length is unchanged. -/
theorem upsert_length_of_hasSnap (pid : ℕ) (now : ℤ) (gem auth : ℚ)
    (lm7 : ℤ) (tsat : ℚ) (gs : List GemScore)
    (h : hasSnap gs pid (dateOf now) = true) :
    (upsertSnapshot pid now gem auth lm7 tsat gs).length = gs.length := by
  induction gs with
  | nil => simp [hasSnap] at h
  | cons g rest ih =>
    by_cases hm : snapKeyMatches pid (dateOf now) g = true
    · simp [upsertSnapshot, hm]
    · have hrest : hasSnap rest pid (dateOf now) = true := by
        simp only [hasSnap, List.any_cons, hm, Bool.false_or] at h
        simpa [hasSnap] using h
      simp [upsertSnapshot, hm, ih hrest]

/-- After an upsert its own key always has a row. -/
theorem upsert_hasSnap_self (pid : ℕ) (now : ℤ) (gem auth : ℚ) (lm7 : ℤ)
    (tsat : ℚ) (gs : List GemScore) :
    hasSnap (upsertSnapshot pid now gem auth lm7 tsat gs) pid (dateOf now) = true := by
  rw [hasSnap_iff]
  by_cases hs : hasSnap gs pid (dateOf now) = true
  · rw [upsert_snapCount_of_hasSnap pid now gem auth lm7 tsat pid (dateOf now) gs hs]
    exact hasSnap_iff.mp hs
  · have hs' : hasSnap gs pid (dateOf now) = false := by simpa using hs
    rw [upsert_eq_append pid now gem auth lm7 tsat gs hs', snapCount_append]
    have h1 : snapCount [newSnapshot pid now gem auth lm7 tsat] pid (dateOf now) = 1 := by
      simp [snapCount, List.filter_cons, snapKeyMatches_new]
    omega

/-- An upsert never removes a key that already had a row. -/
theorem upsert_hasSnap_mono (pid : ℕ) (now : ℤ) (gem auth : ℚ) (lm7 : ℤ)
    (tsat : ℚ) (pid' : ℕ) (day' : ℤ) (gs : List GemScore)
    (h : hasSnap gs pid' day' = true) :
    hasSnap (upsertSnapshot pid now gem auth lm7 tsat gs) pid' day' = true := by
  rw [hasSnap_iff] at h ⊢
  by_cases hs : hasSnap gs pid (dateOf now) = true
  · rw [upsert_snapCount_of_hasSnap pid now gem auth lm7 tsat pid' day' gs hs]
    exact h
  · have hs' : hasSnap gs pid (dateOf now) = false := by simpa using hs
    rw [upsert_eq_append pid now gem auth lm7 tsat gs hs', snapCount_append]
    omega

/-- Every row of an upserted table either was already stored or carries the
just-computed hidden-gem score for the upserted place. -/
theorem upsert_mem (pid : ℕ) (now : ℤ) (gem auth : ℚ) (lm7 : ℤ) (tsat : ℚ)
    (gs : List GemScore) (g' : GemScore)
    (h : g' ∈ upsertSnapshot pid now gem auth lm7 tsat gs) :
    g' ∈ gs ∨ (g'.place_id = pid ∧ g'.hidden_gem_score = gem) := by
  induction gs with
  | nil =>
    simp only [upsertSnapshot, List.mem_singleton] at h
    subst h
    exact Or.inr ⟨rfl, rfl⟩
  | cons g rest ih =>
    by_cases hm : snapKeyMatches pid (dateOf now) g = true
    · simp only [upsertSnapshot, hm, if_true, List.mem_cons] at h
      rcases h with rfl | h
      · exact Or.inr ⟨(snapKeyMatches_eq_true.mp hm).1, rfl⟩
      · exact Or.inl (List.mem_cons_of_mem _ h)
    · simp only [upsertSnapshot, hm, Bool.false_eq_true, if_false,
        List.mem_cons] at h
      rcases h with rfl | h
      · exact Or.inl (List.mem_cons_self _ _)
      · rcases ih h with h' | h'
        · exact Or.inl (List.mem_cons_of_mem _ h')
        · exact Or.inr h'

/-- With nonnegative (`ℕ`-valued) mention counts the gem-score computation
never hits the zero denominator. -/
theorem gem_score_isSome (l t : ℕ) (s : ℚ) (d : ℤ) :
    ∃ q, calculate_gem_score (l : ℤ) (t : ℤ) s d = some q := by
  unfold calculate_gem_score
  by_cases h0 : (t : ℤ) = 0
  · exact ⟨_, by rw [if_pos h0]⟩
  · have hlt : (l : ℤ) + (t : ℤ) ≠ 0 := by omega
    exact ⟨_, by rw [if_neg h0, if_neg hlt]⟩

/-- A fault-free batch never raises. -/
theorem processPlaces_ok (m : List Mention) (now : ℤ) (ps : List Place) :
    ∀ gs, ∃ out, processPlaces noFault m now ps gs = .ok out := by
  induction ps with
  | nil => exact fun gs => ⟨gs, rfl⟩
  | cons place rest ih =>
    intro gs
    obtain ⟨q, hq⟩ := gem_score_isSome
      (countMentions m place.id true (now - 7 * secondsPerDay))
      (countMentions m place.id false (now - 7 * secondsPerDay))
      (avgSentiment m place.id) 30
    obtain ⟨out, hout⟩ := ih
      (upsertSnapshot place.id now q (calculate_authenticity_score place m now)
        ((countMentions m place.id true (now - 7 * secondsPerDay) : ℕ) : ℤ)
        ((countMentions m place.id false (now - 7 * secondsPerDay) : ℕ) /
          ((max 1 (countMentions m place.id true (now - 7 * secondsPerDay) +
            countMentions m place.id false (now - 7 * secondsPerDay)) : ℕ) : ℚ)) gs)
    refine ⟨out, ?_⟩
    simp only [processPlaces, noFault, Bool.false_eq_true, if_false, hq]
    exact hout

/-- A fault for any place of the batch aborts the whole batch with an error. -/
theorem processPlaces_error_of_fail (fails : ℕ → Bool) (m : List Mention)
    (now : ℤ) (ps : List Place) :
    ∀ gs, (∃ p ∈ ps, fails p.id = true) →
      ∃ msg, processPlaces fails m now ps gs = .error msg := by
  induction ps with
  | nil =>
    intro gs h
    obtain ⟨p, hp, _⟩ := h
    exact absurd hp (List.not_mem_nil p)
  | cons place rest ih =>
    intro gs h
    by_cases hf : fails place.id = true
    · exact ⟨"storage fault", by simp [processPlaces, hf]⟩
    · obtain ⟨p, hp, hfp⟩ := h
      rcases List.mem_cons.mp hp with rfl | hrest
      · exact absurd hfp hf
      · obtain ⟨q, hq⟩ := gem_score_isSome
          (countMentions m place.id true (now - 7 * secondsPerDay))
          (countMentions m place.id false (now - 7 * secondsPerDay))
          (avgSentiment m place.id) 30
        obtain ⟨msg, hmsg⟩ := ih
          (upsertSnapshot place.id now q (calculate_authenticity_score place m now)
            ((countMentions m place.id true (now - 7 * secondsPerDay) : ℕ) : ℤ)
            ((countMentions m place.id false (now - 7 * secondsPerDay) : ℕ) /
              ((max 1 (countMentions m place.id true (now - 7 * secondsPerDay) +
                countMentions m place.id false (now - 7 * secondsPerDay)) : ℕ) : ℚ)) gs)
          ⟨p, hrest, hfp⟩
        refine ⟨msg, ?_⟩
        simp only [processPlaces, hf, Bool.false_eq_true, if_false, hq]
        exact hmsg

/-- Inverting one successful step of the batch loop: the place's fault oracle
did not fire, its gem score was defined, and the loop continued on the
upserted table. -/
theorem processPlaces_cons_ok (fails : ℕ → Bool) (m : List Mention) (now : ℤ)
    (place : Place) (rest : List Place) (gs out : List GemScore)
    (h : processPlaces fails m now (place :: rest) gs = .ok out) :
    ∃ q, calculate_gem_score
        ((countMentions m place.id true (now - 7 * secondsPerDay) : ℕ) : ℤ)
        ((countMentions m place.id false (now - 7 * secondsPerDay) : ℕ) : ℤ)
        (avgSentiment m place.id) = some q ∧
      processPlaces fails m now rest
        (upsertSnapshot place.id now q (calculate_authenticity_score place m now)
          ((countMentions m place.id true (now - 7 * secondsPerDay) : ℕ) : ℤ)
          (((countMentions m place.id false (now - 7 * secondsPerDay) : ℕ) : ℚ) /
            ((max 1 (countMentions m place.id true (now - 7 * secondsPerDay) +
              countMentions m place.id false (now - 7 * secondsPerDay)) : ℕ) : ℚ))
          gs) = .ok out := by
  by_cases hf : fails place.id = true
  · simp [processPlaces, hf] at h
  · obtain ⟨q, hq⟩ := gem_score_isSome
      (countMentions m place.id true (now - 7 * secondsPerDay))
      (countMentions m place.id false (now - 7 * secondsPerDay))
      (avgSentiment m place.id) 30
    refine ⟨q, hq, ?_⟩
    simpa only [processPlaces, hf, Bool.false_eq_true, if_false, hq] using h

/-- Weak form of `processPlaces_cons_ok`: a successful step is some upsert
for the head place. -/
theorem processPlaces_cons_ok_weak (fails : ℕ → Bool) (m : List Mention)
    (now : ℤ) (place : Place) (rest : List Place) (gs out : List GemScore)
    (h : processPlaces fails m now (place :: rest) gs = .ok out) :
    ∃ q auth lm7 tsat, processPlaces fails m now rest
      (upsertSnapshot place.id now q auth lm7 tsat gs) = .ok out := by
  obtain ⟨q, _, hstep⟩ := processPlaces_cons_ok fails m now place rest gs out h
  exact ⟨q, _, _, _, hstep⟩

/-- A successful batch bounds every key's snapshot count by the old count
or one. -/
theorem processPlaces_snapCount (fails : ℕ → Bool) (m : List Mention)
    (now : ℤ) (ps : List Place) :
    ∀ gs out, processPlaces fails m now ps gs = .ok out →
      ∀ pid day, snapCount out pid day ≤ max (snapCount gs pid day) 1 := by
  induction ps with
  | nil =>
    intro gs out h pid day
    obtain rfl : gs = out := by simpa [processPlaces] using h
    exact le_max_left _ _
  | cons place rest ih =>
    intro gs out h pid day
    obtain ⟨q, auth, lm7, tsat, hstep⟩ :=
      processPlaces_cons_ok_weak fails m now place rest gs out h
    have h1 := ih _ _ hstep pid day
    have h2 := upsert_snapCount_le place.id now q auth lm7 tsat pid day gs
    omega

/-- A successful batch keeps every existing (place, day) row and ends with a
row for each processed place on the run's calendar day. -/
theorem processPlaces_hasSnap (fails : ℕ → Bool) (m : List Mention)
    (now : ℤ) (ps : List Place) :
    ∀ gs out, processPlaces fails m now ps gs = .ok out →
      (∀ pid day, hasSnap gs pid day = true → hasSnap out pid day = true) ∧
      (∀ p ∈ ps, hasSnap out p.id (dateOf now) = true) := by
  induction ps with
  | nil =>
    intro gs out h
    obtain rfl : gs = out := by simpa [processPlaces] using h
    exact ⟨fun _ _ hh => hh, by simp⟩
  | cons place rest ih =>
    intro gs out h
    obtain ⟨q, auth, lm7, tsat, hstep⟩ :=
      processPlaces_cons_ok_weak fails m now place rest gs out h
    obtain ⟨pres, est⟩ := ih _ _ hstep
    refine ⟨fun pid day hh =>
      pres pid day (upsert_hasSnap_mono place.id now q auth lm7 tsat pid day gs hh), ?_⟩
    intro p hp
    rcases List.mem_cons.mp hp with rfl | hrest
    · exact pres p.id (dateOf now) (upsert_hasSnap_self p.id now q auth lm7 tsat gs)
    · exact est p hrest

/-- When every processed place already has a row for the run's day, a
successful batch only overwrites rows in place: the table length is
unchanged. -/
theorem processPlaces_length (fails : ℕ → Bool) (m : List Mention) (now : ℤ)
    (ps : List Place) :
    ∀ gs out, processPlaces fails m now ps gs = .ok out →
      (∀ p ∈ ps, hasSnap gs p.id (dateOf now) = true) →
      out.length = gs.length := by
  induction ps with
  | nil =>
    intro gs out h _
    obtain rfl : gs = out := by simpa [processPlaces] using h
    rfl
  | cons place rest ih =>
    intro gs out h hall
    obtain ⟨q, auth, lm7, tsat, hstep⟩ :=
      processPlaces_cons_ok_weak fails m now place rest gs out h
    have hhead : hasSnap gs place.id (dateOf now) = true :=
      hall place (List.mem_cons_self _ _)
    have hlen := upsert_length_of_hasSnap place.id now q auth lm7 tsat gs hhead
    have hall' : ∀ p ∈ rest,
        hasSnap (upsertSnapshot place.id now q auth lm7 tsat gs) p.id (dateOf now) = true :=
      fun p hp => upsert_hasSnap_mono place.id now q auth lm7 tsat p.id (dateOf now) gs
        (hall p (List.mem_cons_of_mem _ hp))
    rw [ih _ _ hstep hall', hlen]

/-- With the default discovery age of 30 the gem score has no freshness
term: the source function equals the bonus-free formula. -/
theorem gem_no_bonus_eq (l t : ℤ) (s : ℚ) :
    calculate_gem_score l t s = gem_score_no_bonus l t s := by
  have hcore : ∀ r : ℚ, gemFromRatio r s 30 =
      min 100 (max 0 ((1 - r) * 100 * (max (0.5 : ℚ) (min 1.5 (s + 1))))) := by
    intro r
    unfold gemFromRatio
    have h30 : (max 0 (30 - 30) : ℤ) = 0 := by omega
    rw [h30]
    simp only [Int.cast_zero, zero_div, zero_mul, add_zero]
  unfold calculate_gem_score gem_score_no_bonus
  by_cases ht : t = 0
  · rw [if_pos ht, if_pos ht, hcore]
  · by_cases hlt : l + t = 0
    · rw [if_neg ht, if_pos hlt, if_neg ht, if_pos hlt]
    · rw [if_neg ht, if_neg hlt, if_neg ht, if_neg hlt, hcore]

/-- Every row of a successful batch either was already stored or carries
the bonus-free gem score recomputed from its own place's mention data. -/
theorem processPlaces_scores (fails : ℕ → Bool) (m : List Mention) (now : ℤ)
    (ps : List Place) :
    ∀ gs out, processPlaces fails m now ps gs = .ok out →
      ∀ g ∈ out, g ∈ gs ∨
        gem_score_no_bonus
          ((countMentions m g.place_id true (now - 7 * secondsPerDay) : ℕ) : ℤ)
          ((countMentions m g.place_id false (now - 7 * secondsPerDay) : ℕ) : ℤ)
          (avgSentiment m g.place_id) = some g.hidden_gem_score := by
  induction ps with
  | nil =>
    intro gs out h g hg
    obtain rfl : gs = out := by simpa [processPlaces] using h
    exact Or.inl hg
  | cons place rest ih =>
    intro gs out h g hg
    obtain ⟨q, hq, hstep⟩ := processPlaces_cons_ok fails m now place rest gs out h
    rcases ih _ _ hstep g hg with hup | hP
    · rcases upsert_mem place.id now q _ _ _ gs g hup with hgs | ⟨hpid, hscore⟩
      · exact Or.inl hgs
      · refine Or.inr ?_
        rw [hpid, hscore, ← gem_no_bonus_eq]
        exact hq
    · exact Or.inr hP

/-- A fault-free task run always reports success with the city id. -/
theorem update_task_success (db : DB) (now cid : ℤ) :
    (update_gem_scores noFault db now cid).2 = TaskResult.success cid := by
  obtain ⟨out, hout⟩ := processPlaces_ok db.mentions now
    (db.places.filter (fun p => p.city_id == cid)) db.gem_scores
  simp [update_gem_scores, update_all_scores, hout]

/-- A fault-free run commits: the committed store keeps `places` and
`mentions` and replaces `gem_scores` with the batch's output. -/
theorem run_update_eq (db : DB) (now cid : ℤ) :
    ∃ out, processPlaces noFault db.mentions now
        (db.places.filter (fun p => p.city_id == cid)) db.gem_scores = .ok out ∧
      run_update db now cid = { db with gem_scores := out } := by
  obtain ⟨out, hout⟩ := processPlaces_ok db.mentions now
    (db.places.filter (fun p => p.city_id == cid)) db.gem_scores
  refine ⟨out, hout, ?_⟩
  simp [run_update, update_gem_scores, update_all_scores, hout]

/-- Evaluating one fault-free run on a store with a single city-1 place and
no mentions: one snapshot is inserted, with gem score 100 (no tourists),
authenticity 100, zero counts and zero saturation. -/
theorem run_update_onePlace :
    (run_update onePlaceDB 0 1).gem_scores = [newSnapshot 1 0 100 100 0 0] := by
  norm_num [run_update, update_gem_scores, update_all_scores, processPlaces,
    noFault, onePlaceDB, placeOne, countMentions, avgSentiment,
    calculate_gem_score, gemFromRatio, calculate_authenticity_score,
    recentLocalCount, michelinTruthy, addressHasLandmark, upsertSnapshot,
    newSnapshot, secondsPerDay, min_def, max_def]

/-- Counterexample for claim C4 as stated: with a simulated storage fault for
place 1 in a two-place city, the batch does not skip place 1 and continue —
it aborts whole (the source loop has no try/except), the session rolls back,
and no snapshot is produced for the other place 2 either. -/
theorem C4_counterexample :
    update_gem_scores faultOnFirst twoPlaceDB 0 1 =
      (twoPlaceDB, TaskResult.error "storage fault") ∧
      (update_gem_scores faultOnFirst twoPlaceDB 0 1).1.gem_scores = [] ∧
      placeTwo ∈ twoPlaceDB.places.filter (fun p => p.city_id == 1) := by
  refine ⟨by decide, by decide, by decide⟩

/-- Claim C4 (amended): a per-place computation error during
`update_all_scores` is not caught: it aborts the whole batch, nothing is
committed for any place of the city (the session rolls back, so the store is
unchanged), and the error propagates to the worker task, which reports a
structured failure. -/
theorem C4_fault_aborts_batch (fails : ℕ → Bool) (db : DB) (now city_id : ℤ)
    (h : ∃ p ∈ db.places.filter (fun p => p.city_id == city_id), fails p.id = true) :
    (update_gem_scores fails db now city_id).1 = db ∧
      ∃ msg, (update_gem_scores fails db now city_id).2 = TaskResult.error msg := by
  obtain ⟨msg, hmsg⟩ := processPlaces_error_of_fail fails db.mentions now
    (db.places.filter (fun p => p.city_id == city_id)) db.gem_scores h
  refine ⟨?_, msg, ?_⟩
  · simp [update_gem_scores, update_all_scores, hmsg]
  · simp [update_gem_scores, update_all_scores, hmsg]

/-- Witness for claim C4 (amended) at the concrete faulted two-place store. -/
theorem C4_witness :
    (update_gem_scores faultOnFirst twoPlaceDB 0 1).1 = twoPlaceDB ∧
      ∃ msg, (update_gem_scores faultOnFirst twoPlaceDB 0 1).2 = TaskResult.error msg :=
  C4_fault_aborts_batch faultOnFirst twoPlaceDB 0 1 ⟨placeOne, by decide, by decide⟩

/-- Claim C5: a scoring run preserves the invariant that each place has at
most one snapshot per calendar day, and a second run on the same calendar
day finds each place's existing (place, day) snapshot and overwrites it in
place: the snapshot table does not grow. -/
theorem C5_at_most_one_snapshot_per_day (db : DB) (now now' city_id day : ℤ)
    (hday : dateOf now' = dateOf now) :
    (AtMostOnePerDay db.gem_scores day →
      AtMostOnePerDay (run_update db now city_id).gem_scores day) ∧
    (run_update (run_update db now city_id) now' city_id).gem_scores.length =
      (run_update db now city_id).gem_scores.length := by
  obtain ⟨out, hout, heq⟩ := run_update_eq db now city_id
  have hgs1 : (run_update db now city_id).gem_scores = out := by rw [heq]
  constructor
  · intro hinv pid
    rw [hgs1]
    have h1 := processPlaces_snapCount noFault db.mentions now _ _ _ hout pid day
    have h2 := hinv pid
    omega
  · set db1 := run_update db now city_id with hdb1
    obtain ⟨out2, hout2, heq2⟩ := run_update_eq db1 now' city_id
    have hplaces : db1.places = db.places := by rw [heq]
    have hgs1' : db1.gem_scores = out := by rw [heq]
    have hest := (processPlaces_hasSnap noFault db.mentions now _ _ _ hout).2
    have hall : ∀ p ∈ db1.places.filter (fun p => p.city_id == city_id),
        hasSnap db1.gem_scores p.id (dateOf now') = true := by
      intro p hp
      rw [hgs1', hday]
      apply hest
      rwa [hplaces] at hp
    have hlen := processPlaces_length noFault db1.mentions now' _ _ _ hout2 hall
    rw [heq2]
    simpa [hgs1'] using hlen

/-- Witness for claim C5 at a one-place store, with the second run an hour
later on the same calendar day. -/
theorem C5_witness :
    (AtMostOnePerDay onePlaceDB.gem_scores (dateOf 0) →
      AtMostOnePerDay (run_update onePlaceDB 0 1).gem_scores (dateOf 0)) ∧
    (run_update (run_update onePlaceDB 0 1) 3600 1).gem_scores.length =
      (run_update onePlaceDB 0 1).gem_scores.length :=
  C5_at_most_one_snapshot_per_day onePlaceDB 0 3600 1 (dateOf 0) (by decide)

/-- Counterexample for claim C9 as stated: the task outcome is identical for
a one-place city and a two-place city — `{"status": "success", "city_id":
city_id}` both times — so the success outcome does not carry the count of
places processed (and `update_all_scores` itself returns `None`). -/
theorem C9_counterexample :
    (update_gem_scores noFault onePlaceDB 0 1).2 =
      (update_gem_scores noFault twoPlaceDB 0 1).2 ∧
      (onePlaceDB.places.filter (fun p => p.city_id == 1)).length ≠
        (twoPlaceDB.places.filter (fun p => p.city_id == 1)).length := by
  refine ⟨?_, by decide⟩
  rw [update_task_success, update_task_success]

/-- Claim C9 (amended): the scheduler-facing task returns, on success, a
structured outcome carrying the city identifier (not the count of places
processed), and on a raised error a structured failure with a message. -/
theorem C9_task_outcome (db : DB) (now city_id : ℤ) :
    (update_gem_scores noFault db now city_id).2 = TaskResult.success city_id ∧
    ∀ fails : ℕ → Bool,
      (∃ p ∈ db.places.filter (fun p => p.city_id == city_id), fails p.id = true) →
      ∃ msg, (update_gem_scores fails db now city_id).2 = TaskResult.error msg := by
  refine ⟨update_task_success db now city_id, ?_⟩
  intro fails h
  obtain ⟨msg, hmsg⟩ := processPlaces_error_of_fail fails db.mentions now
    (db.places.filter (fun p => p.city_id == city_id)) db.gem_scores h
  exact ⟨msg, by simp [update_gem_scores, update_all_scores, hmsg]⟩

/-- Witness for claim C9 (amended) at the two-place store, fault-free and
with a fault on place 1. -/
theorem C9_witness :
    (update_gem_scores noFault twoPlaceDB 0 1).2 = TaskResult.success 1 ∧
      ∃ msg, (update_gem_scores faultOnFirst twoPlaceDB 0 1).2 = TaskResult.error msg :=
  ⟨(C9_task_outcome twoPlaceDB 0 1).1,
    (C9_task_outcome twoPlaceDB 0 1).2 faultOnFirst ⟨placeOne, by decide, by decide⟩⟩

/-- Claim C10: `update_all_scores` calls `calculate_gem_score` without a
`days_since_discovery` argument, so the default 30 applies and the freshness
bonus is 0 for every score the batch computes: the source scorer at the
default equals the bonus-free formula, and every snapshot a fault-free run
commits either predates the run or carries exactly the bonus-free
`clamp(base_score * sentiment_multiplier, 0, 100)` recomputed from its own
place's mention statistics. -/
theorem C10_no_freshness_bonus_in_batch :
    (∀ (l t : ℤ) (s : ℚ), calculate_gem_score l t s = gem_score_no_bonus l t s) ∧
    ∀ (db : DB) (now city_id : ℤ), ∀ g ∈ (run_update db now city_id).gem_scores,
      g ∈ db.gem_scores ∨
        gem_score_no_bonus
          ((countMentions db.mentions g.place_id true (now - 7 * secondsPerDay) : ℕ) : ℤ)
          ((countMentions db.mentions g.place_id false (now - 7 * secondsPerDay) : ℕ) : ℤ)
          (avgSentiment db.mentions g.place_id) = some g.hidden_gem_score := by
  refine ⟨gem_no_bonus_eq, ?_⟩
  intro db now city_id g hg
  obtain ⟨out, hout, heq⟩ := run_update_eq db now city_id
  rw [heq] at hg
  exact processPlaces_scores noFault db.mentions now _ db.gem_scores out hout g
    (by simpa using hg)

/-- Witness for claim C10: the snapshot inserted by the one-place run
carries the bonus-free score. -/
theorem C10_witness :
    newSnapshot 1 0 100 100 0 0 ∈ onePlaceDB.gem_scores ∨
      gem_score_no_bonus
        ((countMentions onePlaceDB.mentions (newSnapshot 1 0 100 100 0 0).place_id true
          (0 - 7 * secondsPerDay) : ℕ) : ℤ)
        ((countMentions onePlaceDB.mentions (newSnapshot 1 0 100 100 0 0).place_id false
          (0 - 7 * secondsPerDay) : ℕ) : ℤ)
        (avgSentiment onePlaceDB.mentions (newSnapshot 1 0 100 100 0 0).place_id) =
        some (newSnapshot 1 0 100 100 0 0).hidden_gem_score :=
  C10_no_freshness_bonus_in_batch.2 onePlaceDB 0 1 (newSnapshot 1 0 100 100 0 0)
    (by rw [run_update_onePlace]; exact List.mem_singleton.mpr rfl)
